import Mathlib


/-
Verification of the scene-graph traversal, render-list construction and
GPU-object lifecycle core of the ACG engine (Eng::Node, Eng::List,
Eng::Managed, Eng::Container, Eng::Object).

Shallow embedding conventions:
* glm::mat4 (4x4 float matrices) are modelled as 4x4 rational matrices
  `GlmMat4`; the claims under study are about composition order, not about
  floating-point rounding.
* Objects are identified by the natural number standing for their backing
  storage (the `reserved` pointer); id 0 is the process-wide sentinel
  (`Eng::Node::empty` / `Eng::Object::empty`), since C++ equality on engine
  objects compares the `reserved` pointers.
* The scene graph handed to `Eng::List::process` is modelled as a finite
  tree `STree` (the C++ recursion requires finiteness to terminate).
* The C++ class `Eng::List` is named `RenderList` here because `List` is
  taken by Lean's core list type; all other names follow the source.
-/

/-- 4x4 matrix, the model of `glm::mat4`. -/
def GlmMat4 : Type := Matrix (Fin 4) (Fin 4) ℚ

instance : Mul GlmMat4 := inferInstanceAs (Mul (Matrix (Fin 4) (Fin 4) ℚ))

instance : One GlmMat4 := inferInstanceAs (One (Matrix (Fin 4) (Fin 4) ℚ))

namespace GlmMat4

/-- `glm::transpose`. -/
def transpose (A : GlmMat4) : GlmMat4 :=
  Matrix.transpose (A : Matrix (Fin 4) (Fin 4) ℚ)

/-- A scalar diagonal matrix, e.g. `glm::mat4(2.0f)`. -/
def diag (q : ℚ) : GlmMat4 :=
  Matrix.diagonal fun _ => q

theorem transpose_mul (A B : GlmMat4) :
    (A * B).transpose = B.transpose * A.transpose :=
  Matrix.transpose_mul (A : Matrix (Fin 4) (Fin 4) ℚ) B

theorem transpose_transpose (A : GlmMat4) : A.transpose.transpose = A :=
  Matrix.transpose_transpose (A : Matrix (Fin 4) (Fin 4) ℚ)

theorem one_mul_self (A : GlmMat4) : 1 * A = A :=
  one_mul (M := Matrix (Fin 4) (Fin 4) ℚ) A

theorem mul_assoc_self (A B C : GlmMat4) : A * B * C = A * (B * C) :=
  mul_assoc (G := Matrix (Fin 4) (Fin 4) ℚ) A B C

theorem diag_mul_diag (p q : ℚ) : diag p * diag q = diag (p * q) := by
  rw [show diag p * diag q
      = Matrix.diagonal (fun _ => p) * Matrix.diagonal (fun _ => q) from rfl,
    Matrix.diagonal_mul_diagonal]
  rfl

theorem diag_ne (p q : ℚ) (h : p ≠ q) : diag p ≠ diag q := fun hc =>
  h (Matrix.diagonal_eq_diagonal_iff.mp hc 0)

end GlmMat4

/-! ## Eng::Node (engine_node.cpp)

A `NodeWorld` is the state of every node at once: `parent` is the
parent back-reference (`reserved->parent`, 0 = `Node::empty`),
`children` the per-node ordered children sequence (`reserved->children`),
and `localMatrix` the local transform (`reserved->matrix`). -/

structure NodeWorld where
  parent : Nat → Nat
  children : Nat → List Nat
  localMatrix : Nat → GlmMat4

namespace Node

/-- `Eng::Node::addChild` (engine_node.cpp:224-244), invoked as
`a.addChild(b)` on world `w`.  Fails if the child is the sentinel or
already has a non-sentinel parent; otherwise appends `b` to `a`'s children
(`children.push_back(child)`) and sets `b`'s parent back-reference to `a`
(`child.setParent(*this)`). -/
def addChild (w : NodeWorld) (a b : Nat) : Bool × NodeWorld :=
  if b = 0 then (false, w)
  else if w.parent b ≠ 0 then (false, w)
  else (true,
    { parent := fun x => if x = b then a else w.parent x
      children := fun x => if x = a then w.children a ++ [b] else w.children x
      localMatrix := w.localMatrix })

/-- The do-while loop of `Eng::Node::getWorldMatrix` (engine_node.cpp:134-138):
`result = result * transpose(current.matrix); current = current.parent;`
repeated `while (current != empty && current != root)`.  The C++ loop can
diverge on a cyclic parent chain, hence the fuel; `none` models
non-termination within the given fuel. -/
def worldLoop (w : NodeWorld) (rootId : Nat) : Nat → GlmMat4 → Nat → Option GlmMat4
  | _, _, 0 => none
  | current, acc, fuel + 1 =>
    let acc2 := acc * (w.localMatrix current).transpose
    let next := w.parent current
    if next = 0 ∨ next = rootId then some acc2
    else worldLoop w rootId next acc2 fuel

/-- `Eng::Node::getWorldMatrix(root)` (engine_node.cpp:128-142): runs the
accumulation loop starting from `this` with accumulator `mat4(1)` and
returns the transpose of the result.  `rootId = 0` is the default argument
`Node::empty`. -/
def getWorldMatrix (w : NodeWorld) (thisId rootId fuel : Nat) : Option GlmMat4 :=
  (worldLoop w rootId thisId 1 fuel).map GlmMat4.transpose

end Node

/-- A fresh node world: every node unparented with no children and
identity local matrix. -/
def freshWorld : NodeWorld :=
  { parent := fun _ => 0, children := fun _ => [], localMatrix := fun _ => 1 }

/-! ## Eng::Managed (engine_managed.cpp)

`MState` is the global state of the subsystem: `flags x` is
`x.reserved->initialized` for the object whose reserved storage is `x`,
and `reg` is the process-wide `allManaged` registry in list order.
A `Managed` object is referred to by `Option Nat`: `some r` is an object
whose `reserved` unique-ptr points to storage `r`, `none` is a moved-from
object whose `reserved` is null. -/

structure MState where
  flags : Nat → Bool
  reg : List Nat

namespace Managed

/-- `Eng::Managed::init` (engine_managed.cpp:108-123): fails when already
in the initialized state, otherwise registers the instance in `allManaged`
(push_back) and raises the flag.  On a moved-from object (`reserved` null)
the guard `if (reserved && reserved->initialized)` falls through and the
subsequent `reserved->initialized = true` dereferences a null pointer:
modelled as `none` (no defined result). -/
def init (s : MState) : Option Nat → Option (Bool × MState)
  | some r =>
    if s.flags r then some (false, s)
    else some (true,
      { flags := fun x => if x = r then true else s.flags x
        reg := s.reg ++ [r] })
  | none => none

/-- Erase the first occurrence of `r`, the effect of the find-and-erase
loop over `allManaged` in `Eng::Managed::free` (engine_managed.cpp:143-149). -/
def eraseFirst : List Nat → Nat → List Nat
  | [], _ => []
  | x :: xs, r => if x = r then xs else x :: eraseFirst xs r

/-- `Eng::Managed::free` (engine_managed.cpp:131-154): returns true on a
moved-from object (`!reserved`), returns true without touching anything on
an uninitialized object, and otherwise removes the first matching registry
entry and lowers the flag, returning true. -/
def free (s : MState) : Option Nat → Bool × MState
  | none => (true, s)
  | some r =>
    if s.flags r then
      (true,
        { flags := fun x => if x = r then false else s.flags x
          reg := eraseFirst s.reg r })
    else (true, s)

/-- The cursor loop of `Eng::Managed::forceRelease`
(engine_managed.cpp:167-183): walks the registry; on a still-initialized
entry it advances the iterator first and only then calls `free()` on the
saved position, so the erase performed by `free` (always at or before the
just-passed position, never in the unvisited suffix) leaves the remaining
traversal intact.  The loop is therefore recursion on the suffix of
entries not yet visited. -/
def frLoop (s : MState) : List Nat → MState
  | [] => s
  | x :: xs =>
    if s.flags x then frLoop (free s (some x)).snd xs
    else frLoop s xs

/-- `Eng::Managed::forceRelease` (engine_managed.cpp:162-189). -/
def forceRelease (s : MState) : MState :=
  frLoop s s.reg

/-- The `initialized` tally computed by `Eng::Managed::dumpReport`
(engine_managed.cpp:197-209): the number of registry entries whose
`isInitialized()` is true. -/
def dumpInitCount (s : MState) : Nat :=
  (s.reg.filter fun x => s.flags x).length

end Managed

/-- A concrete managed-subsystem state for witnesses: object 1 initialized
and registered, object 2 registered with flag lowered. -/
def mSample : MState :=
  { flags := fun x => x == 1, reg := [1, 2] }

/-! ## Eng::Object identity (engine_object.cpp)

`Eng::Object::Reserved::Reserved` assigns `id{ idCounter++ }` from the
file-static `uint32_t idCounter = 0`; `uint32_t` arithmetic wraps at
2^32. -/

/-- 2^32, the modulus of `uint32_t`. -/
def UINT32_LIM : Nat := 4294967296

/-- One `Eng::Object::Reserved` construction (engine_object.cpp:50):
returns the id handed out (`idCounter++` yields the old value) and the new
counter, which as a `uint32_t` wraps at 2^32. -/
def objectCtorStep (idCounter : Nat) : Nat × Nat :=
  (idCounter, (idCounter + 1) % UINT32_LIM)

/-- Value of the static `idCounter` after `n` object constructions in the
process (it starts at 0). -/
def objIdCounterAfter : Nat → Nat
  | 0 => 0
  | n + 1 => (objectCtorStep (objIdCounterAfter n)).snd

/-- The id returned by `getId()` for the `n`-th object constructed in the
process (0-based): the counter value seen by its construction. -/
def nthObjectId (n : Nat) : Nat :=
  (objectCtorStep (objIdCounterAfter n)).fst

/-! ## Eng::Container (engine_container.cpp)

The container owns five insertion-ordered collections; `find` scans them
with one sequential loop per collection. -/

/-- The identity a container scan looks at: `getName()` and `getId()`. -/
structure CObj where
  name : String
  id : Nat

structure ContState where
  allNodes : List CObj
  allMeshes : List CObj
  allLights : List CObj
  allMaterials : List CObj
  allTextures : List CObj

namespace Container

/-- One `for (auto &c : collection) if (c.getName() == name) return c;`
loop of `Eng::Container::find` by name. -/
def scanName : List CObj → String → Option CObj
  | [], _ => none
  | o :: os, n => if o.name = n then some o else scanName os n

/-- One `for (auto &c : collection) if (c.getId() == id) return c;`
loop of `Eng::Container::find` by id. -/
def scanId : List CObj → Nat → Option CObj
  | [], _ => none
  | o :: os, i => if o.id = i then some o else scanId os i

/-- `Eng::Container::find(name)` (engine_container.cpp:244-280): empty
names are rejected up front (`return Eng::Object::empty`, modelled as
`none`), then the five collections are scanned in the fixed order
materials, textures, meshes, lights, nodes, first match returned. -/
def findName (c : ContState) (n : String) : Option CObj :=
  if n = "" then none
  else
    match scanName c.allMaterials n with
    | some o => some o
    | none =>
      match scanName c.allTextures n with
      | some o => some o
      | none =>
        match scanName c.allMeshes n with
        | some o => some o
        | none =>
          match scanName c.allLights n with
          | some o => some o
          | none => scanName c.allNodes n

/-- `Eng::Container::find(id)` (engine_container.cpp:289-322): id 0 takes
the fast lane to `Eng::Object::empty`, then the same five scans in the
same order. -/
def findId (c : ContState) (i : Nat) : Option CObj :=
  if i = 0 then none
  else
    match scanId c.allMaterials i with
    | some o => some o
    | none =>
      match scanId c.allTextures i with
      | some o => some o
      | none =>
        match scanId c.allMeshes i with
        | some o => some o
        | none =>
          match scanId c.allLights i with
          | some o => some o
          | none => scanId c.allNodes i

/-- The five collections laid out in the priority order `find` uses. -/
def searchOrder (c : ContState) : List CObj :=
  c.allMaterials ++ c.allTextures ++ c.allMeshes ++ c.allLights ++ c.allNodes

end Container

/-- A concrete container for witnesses: a material and a node sharing the
name "wood" (the material must win), plus a lone light. -/
def cSample : ContState :=
  { allNodes := [⟨"wood", 5⟩]
    allMeshes := []
    allLights := [⟨"sun", 7⟩]
    allMaterials := [⟨"wood", 9⟩]
    allTextures := [] }

/-! ## Eng::List (engine_list.cpp)

The scene graph fed to `process` is a finite tree: a node carries its
identity (`reserved` storage, 0 = `Node::empty`), its dynamic type as seen
by the two `dynamic_cast`s in `process` (Light / Mesh / anything else),
its local matrix, and its ordered children. -/

/-- Dynamic type of a node as tested by `process`:
`dynamic_cast<const Eng::Light*>` first, then
`dynamic_cast<const Eng::Mesh*>`, else a plain node (Node, Camera, ...). -/
inductive NKind where
  | plain
  | light
  | mesh
deriving DecidableEq

/-- A scene-graph node: id, dynamic kind, local matrix, children. -/
inductive STree where
  | mk : Nat → NKind → GlmMat4 → List STree → STree

namespace STree

def nid : STree → Nat
  | mk i _ _ _ => i

def kind : STree → NKind
  | mk _ k _ _ => k

def localMatrix : STree → GlmMat4
  | mk _ _ m _ => m

def children : STree → List STree
  | mk _ _ _ cs => cs

end STree

/-- `Eng::List::RenderableElem` (engine_list.h:44-55): a reference to the
original object (here its id and dynamic kind) plus the accumulated world
matrix. -/
structure RenderableElem where
  refId : Nat
  refKind : NKind
  matrix : GlmMat4

/-- `Eng::List::Reserved` (engine_list.cpp:32-42): the element vector and
the light counter. -/
structure ListState where
  renderableElem : List RenderableElem
  nrOfLights : Nat

/-- `Eng::List::reset` (engine_list.cpp:94-98) / the freshly constructed
list: empty vector, zero lights. -/
def resetList : ListState :=
  { renderableElem := [], nrOfLights := 0 }

namespace RenderList

mutual

/-- `Eng::List::process(node, prevMatrix)` (engine_list.cpp:152-181):
rejects the sentinel, computes `re.matrix = prevMatrix * node.getMatrix()`,
front-inserts a light (`insert(begin(), 1, re)`, `nrOfLights++`),
back-inserts a mesh (`push_back`), stores nothing for a plain node, then
recurses over the children with `re.matrix`, aborting on the first child
failure. -/
def process (s : ListState) : STree → GlmMat4 → Bool × ListState
  | STree.mk i k m cs, prevMatrix =>
    if i = 0 then (false, s)
    else
      let reMatrix := prevMatrix * m
      let s1 : ListState :=
        match k with
        | NKind.light =>
          { renderableElem := ⟨i, k, reMatrix⟩ :: s.renderableElem
            nrOfLights := s.nrOfLights + 1 }
        | NKind.mesh =>
          { renderableElem := s.renderableElem ++ [⟨i, k, reMatrix⟩]
            nrOfLights := s.nrOfLights }
        | NKind.plain => s
      processChildren s1 cs reMatrix

/-- The `for (auto& n : node.getListOfChildren())` recursion of `process`:
children in sequence order, propagating the first `false`. -/
def processChildren (s : ListState) : List STree → GlmMat4 → Bool × ListState
  | [], _ => (true, s)
  | c :: cs, m =>
    match process s c m with
    | (false, s') => (false, s')
    | (true, s') => processChildren s' cs m

end

end RenderList

mutual

/-- The renderable elements a traversal of `t` under accumulated parent
matrix `prev` discovers, in depth-first discovery order (the order the
`process` recursion reaches them). -/
def elemsOfT : STree → GlmMat4 → List RenderableElem
  | STree.mk i k m cs, prev =>
    let w := prev * m
    (match k with
     | NKind.light => [⟨i, k, w⟩]
     | NKind.mesh => [⟨i, k, w⟩]
     | NKind.plain => []) ++ elemsOfL cs w

/-- `elemsOfT` over a children sequence, left to right. -/
def elemsOfL : List STree → GlmMat4 → List RenderableElem
  | [], _ => []
  | c :: cs, m => elemsOfT c m ++ elemsOfL cs m

end

/-- The Light elements of a traversal, in discovery order. -/
def lightsOfT (t : STree) (prev : GlmMat4) : List RenderableElem :=
  (elemsOfT t prev).filter fun e => e.refKind = NKind.light

/-- The Mesh elements of a traversal, in discovery order. -/
def meshesOfT (t : STree) (prev : GlmMat4) : List RenderableElem :=
  (elemsOfT t prev).filter fun e => e.refKind = NKind.mesh

/-- The Light elements discovered across a forest, in discovery order. -/
def lightsOfL (ts : List STree) (m : GlmMat4) : List RenderableElem :=
  (elemsOfL ts m).filter fun e => e.refKind = NKind.light

/-- The Mesh elements discovered across a forest, in discovery order. -/
def meshesOfL (ts : List STree) (m : GlmMat4) : List RenderableElem :=
  (elemsOfL ts m).filter fun e => e.refKind = NKind.mesh

mutual

/-- Number of nodes of dynamic kind `k` in the tree. -/
def countKindT (k : NKind) : STree → Nat
  | STree.mk _ k' _ cs => (if k' = k then 1 else 0) + countKindL k cs

/-- Number of nodes of dynamic kind `k` in a forest. -/
def countKindL (k : NKind) : List STree → Nat
  | [] => 0
  | c :: cs => countKindT k c + countKindL k cs

end

/-- `Eng::List::Pass` (engine_list.h:27-38). -/
inductive Pass where
  | none
  | all
  | lights
  | meshes
  | last
deriving DecidableEq

/-- One `re.reference.get().render(0, &info)` invocation issued by
`Eng::List::render` (engine_list.cpp:215-224): the target object, the
constant value 0, and the `RenderableElemInfo` payload, which carries the
camera matrix (`info.camMatrix = cameraMatrix`) and the object matrix
(`info.objMatrix = re.matrix`). -/
structure RenderCall where
  targetId : Nat
  targetKind : NKind
  value : Nat
  camMatrix : GlmMat4
  objMatrix : GlmMat4

/-- The call `render` issues for element `re` under camera matrix `C`. -/
def mkRenderCall (cameraMatrix : GlmMat4) (re : RenderableElem) : RenderCall :=
  { targetId := re.refId
    targetKind := re.refKind
    value := 0
    camMatrix := cameraMatrix
    objMatrix := re.matrix }

namespace RenderList

/-- `Eng::List::render(cameraMatrix, pass)` (engine_list.cpp:191-228):
`startRange = 0`, `endRange = size`, overridden to `endRange = nrOfLights`
for `Pass::lights` and `startRange = nrOfLights` for `Pass::meshes` (the
other passes keep the defaults), then the loop
`for (c = startRange; c < endRange; c++)` invokes
`renderableElem.at(c).reference.render(0, &info)` in index order.  The
`at(c)` accesses are in bounds whenever `nrOfLights ≤ size`, which holds
for every list built by `process`; the take/drop slice below is the trace
of the loop under that condition. -/
def render (s : ListState) (cameraMatrix : GlmMat4) (pass : Pass) : List RenderCall :=
  let startRange : Nat :=
    match pass with
    | Pass.meshes => s.nrOfLights
    | _ => 0
  let endRange : Nat :=
    match pass with
    | Pass.lights => s.nrOfLights
    | _ => s.renderableElem.length
  ((s.renderableElem.take endRange).drop startRange).map (mkRenderCall cameraMatrix)

end RenderList

/-- Witness scene graph: a plain root (id 1) with a light child (id 2), a
plain child (id 3) whose own child is a mesh (id 4), and a second light
(id 5). -/
def sampleTree : STree :=
  STree.mk 1 NKind.plain 1
    [STree.mk 2 NKind.light 1 [],
     STree.mk 3 NKind.plain 1 [STree.mk 4 NKind.mesh 1 []],
     STree.mk 5 NKind.light 1 []]

/-- Counterexample scene: a single mesh whose local matrix is
diag(2,2,2,2). -/
def cexTree : STree :=
  STree.mk 1 NKind.mesh (GlmMat4.diag 2) []

/-- A camera matrix distinct from the identity: diag(3,3,3,3). -/
def cexCam : GlmMat4 :=
  GlmMat4.diag 3

/-- Witness parent chain root(1) → A(2) → B(3) with distinct diagonal
local matrices diag 5, diag 2, diag 3. -/
def chainWorld : NodeWorld :=
  { parent := fun x => if x = 3 then 2 else if x = 2 then 1 else 0
    children := fun _ => []
    localMatrix := fun x =>
      if x = 1 then GlmMat4.diag 5
      else if x = 2 then GlmMat4.diag 2
      else if x = 3 then GlmMat4.diag 3
      else 1 }

/-! ## Theorems -/

/-! ### Managed lifecycle helpers -/

theorem eraseFirst_subset (r : Nat) :
    ∀ (l : List Nat) (x : Nat), x ∈ Managed.eraseFirst l r → x ∈ l := by
  intro l
  induction l with
  | nil => intro x hx; simp [Managed.eraseFirst] at hx
  | cons y ys ih =>
    intro x hx
    by_cases hyr : y = r
    · simp [Managed.eraseFirst, hyr] at hx
      exact List.mem_cons_of_mem _ hx
    · simp [Managed.eraseFirst, hyr] at hx
      rcases hx with hx | hx
      · exact hx ▸ List.mem_cons_self _ _
      · exact List.mem_cons_of_mem _ (ih x hx)

theorem frLoop_flags_false :
    ∀ (l : List Nat) (s : MState) (x : Nat),
      x ∈ l ∨ s.flags x = false → (Managed.frLoop s l).flags x = false := by
  intro l
  induction l with
  | nil =>
    intro s x h
    rcases h with h | h
    · simp at h
    · simpa [Managed.frLoop] using h
  | cons y ys ih =>
    intro s x h
    by_cases hy : s.flags y
    · rw [show Managed.frLoop s (y :: ys)
            = Managed.frLoop (Managed.free s (some y)).snd ys by
          simp [Managed.frLoop, hy]]
      apply ih
      by_cases hxy : x = y
      · right; subst hxy; simp [Managed.free, hy]
      · rcases h with hmem | hf
        · rcases List.mem_cons.mp hmem with h1 | h2
          · exact absurd h1 hxy
          · exact Or.inl h2
        · right; simpa [Managed.free, hy, hxy] using hf
    · rw [show Managed.frLoop s (y :: ys) = Managed.frLoop s ys by
          simp [Managed.frLoop, hy]]
      apply ih
      rcases h with hmem | hf
      · rcases List.mem_cons.mp hmem with h1 | h2
        · right; subst h1; simpa using hy
        · exact Or.inl h2
      · exact Or.inr hf

theorem frLoop_reg_subset :
    ∀ (l : List Nat) (s : MState) (x : Nat),
      x ∈ (Managed.frLoop s l).reg → x ∈ s.reg := by
  intro l
  induction l with
  | nil => intro s x hx; simpa [Managed.frLoop] using hx
  | cons y ys ih =>
    intro s x hx
    by_cases hy : s.flags y
    · rw [show Managed.frLoop s (y :: ys)
            = Managed.frLoop (Managed.free s (some y)).snd ys by
          simp [Managed.frLoop, hy]] at hx
      have hx2 := ih _ _ hx
      simp [Managed.free, hy] at hx2
      exact eraseFirst_subset y s.reg x hx2
    · rw [show Managed.frLoop s (y :: ys) = Managed.frLoop s ys by
          simp [Managed.frLoop, hy]] at hx
      exact ih _ _ hx

/-- C3: after `Managed::forceRelease()`, every instance that was
initialized beforehand (`initialized` instances are exactly the
still-flagged registry entries: `init` is the only raiser of the flag and
it registers the instance) has been `free()`d, and `dumpReport()` counts
zero initialized instances.  The iterator discipline of the C++ loop
(advance past the entry before calling `free()` on it) is what makes the
traversal a simple recursion on the unvisited suffix, as modelled by
`Managed.frLoop`. -/
theorem C3_forceRelease_releases_all (s : MState)
    (hreg : ∀ x, s.flags x = true → x ∈ s.reg) :
    (∀ x, s.flags x = true → (Managed.forceRelease s).flags x = false)
  ∧ (∀ x ∈ s.reg, (Managed.forceRelease s).flags x = false)
  ∧ Managed.dumpInitCount (Managed.forceRelease s) = 0 := by
  refine ⟨?_, ?_, ?_⟩
  · intro x hx
    exact frLoop_flags_false s.reg s x (Or.inl (hreg x hx))
  · intro x hx
    exact frLoop_flags_false s.reg s x (Or.inl hx)
  · unfold Managed.dumpInitCount
    have hnil : ((Managed.forceRelease s).reg.filter
        fun x => (Managed.forceRelease s).flags x) = [] := by
      apply List.filter_eq_nil_iff.mpr
      intro x hx
      have hmem : x ∈ s.reg := frLoop_reg_subset s.reg s x hx
      have hf : (Managed.forceRelease s).flags x = false := by
        rw [Managed.forceRelease]
        exact frLoop_flags_false s.reg s x (Or.inl hmem)
      simp [hf]
    rw [Managed.forceRelease] at hnil ⊢
    simp [hnil]

/-- C3 witness: the sample state with object 1 initialized and objects 1,2
registered. -/
theorem C3_forceRelease_witness :
    (∀ x, mSample.flags x = true → x ∈ mSample.reg)
  ∧ Managed.dumpInitCount (Managed.forceRelease mSample) = 0 := by
  have hreg : ∀ x, mSample.flags x = true → x ∈ mSample.reg := by
    intro x hx
    simp [mSample] at hx
    subst hx
    simp [mSample]
  exact ⟨hreg, (C3_forceRelease_releases_all mSample hreg).2.2⟩

/-- `init` on an already-initialized object: early-out failure. -/
theorem init_hit (s : MState) (r : Nat) (h : s.flags r = true) :
    Managed.init s (some r) = some (false, s) := by
  rw [show Managed.init s (some r)
      = if s.flags r then some (false, s)
        else some (true,
          { flags := fun x => if x = r then true else s.flags x
            reg := s.reg ++ [r] }) from rfl, h]
  exact if_pos rfl

/-- `init` on an uninitialized object: register and raise the flag. -/
theorem init_miss (s : MState) (r : Nat) (h : s.flags r = false) :
    Managed.init s (some r) = some (true,
      { flags := fun x => if x = r then true else s.flags x
        reg := s.reg ++ [r] }) := by
  rw [show Managed.init s (some r)
      = if s.flags r then some (false, s)
        else some (true,
          { flags := fun x => if x = r then true else s.flags x
            reg := s.reg ++ [r] }) from rfl, h]
  exact if_neg fun hc => Bool.noConfusion hc

/-- `free` on an initialized object: deregister and lower the flag. -/
theorem free_hit (s : MState) (r : Nat) (h : s.flags r = true) :
    Managed.free s (some r) = (true,
      { flags := fun x => if x = r then false else s.flags x
        reg := Managed.eraseFirst s.reg r }) := by
  rw [show Managed.free s (some r)
      = if s.flags r then
          (true, { flags := fun x => if x = r then false else s.flags x
                   reg := Managed.eraseFirst s.reg r })
        else (true, s) from rfl, h]
  exact if_pos rfl

/-- `free` on an uninitialized object: a successful no-op. -/
theorem free_miss (s : MState) (r : Nat) (h : s.flags r = false) :
    Managed.free s (some r) = (true, s) := by
  rw [show Managed.free s (some r)
      = if s.flags r then
          (true, { flags := fun x => if x = r then false else s.flags x
                   reg := Managed.eraseFirst s.reg r })
        else (true, s) from rfl, h]
  exact if_neg fun hc => Bool.noConfusion hc

/-- C5: `init()` returns false (leaving everything unchanged) exactly when
the object is already initialized; `free()` always returns true, is a
no-op on an uninitialized or moved-from object and downgrades an
initialized one; and from an uninitialized object the sequence
`init(); free(); init();` succeeds at every step. -/
theorem C5_managed_init_free (s : MState) (r : Nat) :
    ((Managed.init s (some r)).map Prod.fst = some false ↔ s.flags r = true)
  ∧ (s.flags r = true → Managed.init s (some r) = some (false, s))
  ∧ (∀ res : Option Nat, (Managed.free s res).fst = true)
  ∧ (s.flags r = true → (Managed.free s (some r)).snd.flags r = false)
  ∧ (s.flags r = false → (Managed.free s (some r)).snd = s)
  ∧ (Managed.free s none).snd = s
  ∧ (s.flags r = false →
      ∃ s1 s2, Managed.init s (some r) = some (true, s1)
        ∧ Managed.free s1 (some r) = (true, s2)
        ∧ (Managed.init s2 (some r)).map Prod.fst = some true) := by
  refine ⟨?_, fun h => init_hit s r h, ?_, ?_,
    fun h => by rw [free_miss s r h], rfl, ?_⟩
  · cases hf : s.flags r with
    | true =>
      refine ⟨fun _ => rfl, fun _ => ?_⟩
      rw [init_hit s r hf]
      rfl
    | false =>
      refine ⟨fun hmap => ?_, fun htrue => Bool.noConfusion htrue⟩
      rw [init_miss s r hf] at hmap
      exact Bool.noConfusion (Option.some.inj hmap)
  · intro res
    cases res with
    | none => rfl
    | some x =>
      cases hf : s.flags x with
      | true => rw [free_hit s x hf]
      | false => rw [free_miss s x hf]
  · intro h
    rw [free_hit s r h]
    exact if_pos rfl
  · intro h
    refine ⟨_, _, init_miss s r h, free_hit _ r (if_pos rfl), ?_⟩
    rw [init_miss _ r (if_pos rfl)]
    rfl

/-- C5 witness: object 2 of the sample state is uninitialized, and the
`init(); free(); init();` round-trip on it succeeds at every step. -/
theorem C5_managed_witness :
    mSample.flags 2 = false
  ∧ (∃ s1 s2, Managed.init mSample (some 2) = some (true, s1)
      ∧ Managed.free s1 (some 2) = (true, s2)
      ∧ (Managed.init s2 (some 2)).map Prod.fst = some true) :=
  ⟨rfl, (C5_managed_init_free mSample 2).2.2.2.2.2.2 rfl⟩

/-! ### Node hierarchy -/

/-- `addChild` rejects the sentinel child. -/
theorem addChild_sentinel (w : NodeWorld) (a b : Nat) (hb : b = 0) :
    Node.addChild w a b = (false, w) := by
  rw [Node.addChild, if_pos hb]

/-- `addChild` rejects a child that already has a non-sentinel parent. -/
theorem addChild_parented (w : NodeWorld) (a b : Nat) (hb : b ≠ 0)
    (hp : w.parent b ≠ 0) :
    Node.addChild w a b = (false, w) := by
  rw [Node.addChild, if_neg hb, if_pos hp]

/-- `addChild` on an unparented, non-sentinel child: set the parent
back-reference and append to the receiver's children. -/
theorem addChild_ok (w : NodeWorld) (a b : Nat) (hb : b ≠ 0)
    (hp : w.parent b = 0) :
    Node.addChild w a b = (true,
      { parent := fun x => if x = b then a else w.parent x
        children := fun x => if x = a then w.children a ++ [b] else w.children x
        localMatrix := w.localMatrix }) := by
  rw [Node.addChild, if_neg hb, if_neg fun hne => hne hp]

/-- Appending a fresh element leaves exactly one occurrence. -/
theorem count_append_self (l : List Nat) (b : Nat) (hmem : b ∉ l) :
    (l ++ [b]).count b = 1 := by
  rw [List.count_append, List.count_eq_zero.mpr hmem, Nat.zero_add,
    List.count_singleton, if_pos (beq_self_eq_true b)]

/-- C4 (amended): for a non-sentinel receiver `a` and a node `b` not
already among `a`'s children, `a.addChild(b)` fails when `b` is the
sentinel or already has a non-sentinel parent; on success `b.getParent()`
is `a`, `b` is appended at the back of `a`'s children where it occurs
exactly once, and an immediately repeated `a.addChild(b)` fails.  (The
original claim, quantified over every node `a`, fails when `a` is the
sentinel: see the counterexample.) -/
theorem C4_addChild_contract (w : NodeWorld) (a b : Nat)
    (ha : a ≠ 0) (hmem : b ∉ w.children a) :
    ((b = 0 ∨ w.parent b ≠ 0) → (Node.addChild w a b).fst = false)
  ∧ ((Node.addChild w a b).fst = true →
      (Node.addChild w a b).snd.parent b = a
      ∧ (Node.addChild w a b).snd.children a = w.children a ++ [b]
      ∧ ((Node.addChild w a b).snd.children a).count b = 1
      ∧ (Node.addChild (Node.addChild w a b).snd a b).fst = false) := by
  by_cases hb : b = 0
  · rw [addChild_sentinel w a b hb]
    exact ⟨fun _ => rfl, fun hsucc => Bool.noConfusion hsucc⟩
  · by_cases hp : w.parent b = 0
    · have hpar : (Node.addChild w a b).snd.parent b = a := by
        rw [addChild_ok w a b hb hp]
        exact if_pos rfl
      have hkids : (Node.addChild w a b).snd.children a = w.children a ++ [b] := by
        rw [addChild_ok w a b hb hp]
        exact if_pos rfl
      have hne : (Node.addChild w a b).snd.parent b ≠ 0 := by
        rw [hpar]
        exact ha
      refine ⟨fun hcase => hcase.elim (fun h0 => absurd h0 hb)
          (fun hpp => absurd hp hpp),
        fun _ => ⟨hpar, hkids, ?_, by rw [addChild_parented _ a b hb hne]⟩⟩
      rw [hkids]
      exact count_append_self (w.children a) b hmem
    · rw [addChild_parented w a b hb fun hc => hp hc]
      exact ⟨fun _ => rfl, fun hsucc => Bool.noConfusion hsucc⟩

/-- C4 witness: node 2 adopted by node 1 in the fresh world. -/
theorem C4_addChild_witness :
    (1 : Nat) ≠ 0 ∧ (2 : Nat) ∉ freshWorld.children 1
  ∧ ((2 = 0 ∨ freshWorld.parent 2 ≠ 0) → (Node.addChild freshWorld 1 2).fst = false)
  ∧ ((Node.addChild freshWorld 1 2).fst = true →
      (Node.addChild freshWorld 1 2).snd.parent 2 = 1
      ∧ (Node.addChild freshWorld 1 2).snd.children 1 = freshWorld.children 1 ++ [2]
      ∧ ((Node.addChild freshWorld 1 2).snd.children 1).count 2 = 1
      ∧ (Node.addChild (Node.addChild freshWorld 1 2).snd 1 2).fst = false) := by
  refine ⟨by decide, by simp [freshWorld], ?_⟩
  have h := C4_addChild_contract freshWorld 1 2 (by decide) (by simp [freshWorld])
  exact ⟨h.1, h.2⟩

/-- C4 counterexample: the public interface accepts the sentinel as the
*receiver*.  `Node::empty.addChild(b)` succeeds and sets `b`'s parent
back-reference to the sentinel itself, so an immediately repeated
`Node::empty.addChild(b)` succeeds again — contradicting the claim that a
second `a.addChild(b)` without intervening removal always fails — and `b`
then occurs twice in the receiver's children sequence. -/
theorem C4_addChild_counterexample :
    (Node.addChild freshWorld 0 1).fst = true
  ∧ (Node.addChild (Node.addChild freshWorld 0 1).snd 0 1).fst = true
  ∧ ((Node.addChild (Node.addChild freshWorld 0 1).snd 0 1).snd.children 0).count 1 = 2 :=
  ⟨rfl, rfl, rfl⟩

/-- C10: a non-sentinel, unparented node can be made its own parent and
child through the public interface: `a.addChild(a)` succeeds, after which
`a.getParent() == a` and `a` occurs in its own children sequence. -/
theorem C10_addChild_self_cycle (w : NodeWorld) (a : Nat)
    (ha : a ≠ 0) (hp : w.parent a = 0) :
    (Node.addChild w a a).fst = true
  ∧ (Node.addChild w a a).snd.parent a = a
  ∧ a ∈ (Node.addChild w a a).snd.children a := by
  refine ⟨by rw [addChild_ok w a a ha hp], ?_, ?_⟩
  · rw [addChild_ok w a a ha hp]
    exact if_pos rfl
  · have hkids : (Node.addChild w a a).snd.children a = w.children a ++ [a] := by
      rw [addChild_ok w a a ha hp]
      exact if_pos rfl
    rw [hkids]
    exact List.mem_append_right _ (List.mem_singleton.mpr rfl)

/-- C10 witness: node 1 of the fresh world adopts itself. -/
theorem C10_addChild_self_witness :
    (1 : Nat) ≠ 0 ∧ freshWorld.parent 1 = 0
  ∧ (Node.addChild freshWorld 1 1).fst = true
  ∧ (Node.addChild freshWorld 1 1).snd.parent 1 = 1
  ∧ 1 ∈ (Node.addChild freshWorld 1 1).snd.children 1 := by
  refine ⟨by decide, rfl, ?_⟩
  have h := C10_addChild_self_cycle freshWorld 1 (by decide) rfl
  exact ⟨h.1, h.2.1, h.2.2⟩

/-! ### Container lookup -/

theorem scanName_eq_find (l : List CObj) (n : String) :
    Container.scanName l n = l.find? fun o => o.name == n := by
  induction l with
  | nil => rfl
  | cons o os ih =>
    by_cases h : o.name = n <;>
      simp [Container.scanName, List.find?_cons, h, ih]

theorem scanId_eq_find (l : List CObj) (i : Nat) :
    Container.scanId l i = l.find? fun o => o.id == i := by
  induction l with
  | nil => rfl
  | cons o os ih =>
    by_cases h : o.id = i <;>
      simp [Container.scanId, List.find?_cons, h, ih]

/-- The first-match-wins cascade over five options is the or-chain. -/
theorem or5 (o1 o2 o3 o4 o5 : Option CObj) :
    (match o1 with
     | some x => some x
     | none => match o2 with
       | some x => some x
       | none => match o3 with
         | some x => some x
         | none => match o4 with
           | some x => some x
           | none => o5)
    = (((o1.or o2).or o3).or o4).or o5 := by
  cases o1
  · cases o2
    · cases o3
      · cases o4 <;> rfl
      · rfl
    · rfl
  · rfl

/-- Five sequential scan loops, each returning the first element
satisfying `p`, equal one `find?` over the concatenation. -/
theorem scan_chain (f : List CObj → Option CObj) (p : CObj → Bool)
    (hf : ∀ l, f l = l.find? p) (l1 l2 l3 l4 l5 : List CObj) :
    (match f l1 with
     | some x => some x
     | none => match f l2 with
       | some x => some x
       | none => match f l3 with
         | some x => some x
         | none => match f l4 with
           | some x => some x
           | none => f l5)
    = (l1 ++ l2 ++ l3 ++ l4 ++ l5).find? p := by
  rw [hf, hf, hf, hf, hf, List.find?_append, List.find?_append,
    List.find?_append, List.find?_append]
  exact or5 _ _ _ _ _

/-- C8: `Container::find` by name and by id scans materials, textures,
meshes, lights, nodes in that fixed order and returns the first match;
an empty name or a zero id short-circuits to the sentinel
(`Eng::Object::empty`, modelled `none`) before any scan, and a query
matching nothing in any collection yields the sentinel. -/
theorem C8_container_find_order (c : ContState) (n : String) (i : Nat) :
    (n ≠ "" → Container.findName c n
       = (Container.searchOrder c).find? fun o => o.name == n)
  ∧ Container.findName c "" = none
  ∧ (i ≠ 0 → Container.findId c i
       = (Container.searchOrder c).find? fun o => o.id == i)
  ∧ Container.findId c 0 = none
  ∧ ((∀ o ∈ Container.searchOrder c, o.name ≠ n) → Container.findName c n = none)
  ∧ ((∀ o ∈ Container.searchOrder c, o.id ≠ i) → Container.findId c i = none) := by
  have hname : n ≠ "" → Container.findName c n
      = (Container.searchOrder c).find? fun o => o.name == n := by
    intro hn
    rw [Container.findName, if_neg hn, Container.searchOrder]
    exact scan_chain (fun l => Container.scanName l n) (fun o => o.name == n)
      (fun l => scanName_eq_find l n) _ _ _ _ _
  have hid : i ≠ 0 → Container.findId c i
      = (Container.searchOrder c).find? fun o => o.id == i := by
    intro hi
    rw [Container.findId, if_neg hi, Container.searchOrder]
    exact scan_chain (fun l => Container.scanId l i) (fun o => o.id == i)
      (fun l => scanId_eq_find l i) _ _ _ _ _
  refine ⟨hname, by rw [Container.findName, if_pos rfl], hid,
    by rw [Container.findId, if_pos rfl], ?_, ?_⟩
  · intro hmiss
    by_cases hn : n = ""
    · subst hn
      rw [Container.findName, if_pos rfl]
    · rw [hname hn]
      exact List.find?_eq_none.mpr fun o ho hb => hmiss o ho (eq_of_beq hb)
  · intro hmiss
    by_cases hi : i = 0
    · subst hi
      rw [Container.findId, if_pos rfl]
    · rw [hid hi]
      exact List.find?_eq_none.mpr fun o ho hb => hmiss o ho (eq_of_beq hb)

/-- C8 witness: in the sample container the material named "wood" wins
over the node of the same name, the lookup for id 7 finds the light, and
lookups for an absent name, the empty name, and id 0 give the sentinel. -/
theorem C8_container_find_witness :
    Container.findName cSample "wood" = some ⟨"wood", 9⟩
  ∧ Container.findId cSample 7 = some ⟨"sun", 7⟩
  ∧ Container.findName cSample "marble" = none
  ∧ Container.findName cSample "" = none
  ∧ Container.findId cSample 0 = none := by
  have h1 := (C8_container_find_order cSample "wood" 7).1 (by decide)
  have h2 := (C8_container_find_order cSample "wood" 7).2.2.1 (by decide)
  refine ⟨?_, ?_, ?_, (C8_container_find_order cSample "" 0).2.1,
    (C8_container_find_order cSample "marble" 0).2.2.2.1⟩
  · rw [h1]; rfl
  · rw [h2]; rfl
  · rw [(C8_container_find_order cSample "marble" 7).1 (by decide)]; rfl

/-! ### Object identity -/

theorem objIdCounterAfter_mod (n : Nat) : objIdCounterAfter n = n % UINT32_LIM := by
  induction n with
  | zero => rfl
  | succ k ih =>
    rw [objIdCounterAfter, objectCtorStep, ih]
    conv_rhs => rw [Nat.add_mod]
    norm_num [UINT32_LIM]

theorem nthObjectId_mod (n : Nat) : nthObjectId n = n % UINT32_LIM := by
  rw [nthObjectId, objectCtorStep, objIdCounterAfter_mod]

/-- C9 (amended): as long as fewer than 2^32 objects have been constructed
in the process, ids are assigned once at construction from the counter and
are pairwise distinct and strictly increasing in construction order.  (The
counter is a `uint32_t` and wraps at 2^32 constructions, after which ids
repeat: see the counterexample.) -/
theorem C9_ids_strictly_increasing (a b : Nat) (hab : a < b) (hb : b < UINT32_LIM) :
    nthObjectId a < nthObjectId b ∧ nthObjectId a ≠ nthObjectId b := by
  rw [nthObjectId_mod, nthObjectId_mod,
    Nat.mod_eq_of_lt (lt_trans hab hb), Nat.mod_eq_of_lt hb]
  exact ⟨hab, Nat.ne_of_lt hab⟩

/-- C9 witness: the 3rd and 8th constructed objects. -/
theorem C9_ids_witness :
    2 < 7 ∧ 7 < UINT32_LIM ∧ nthObjectId 2 < nthObjectId 7 ∧ nthObjectId 2 ≠ nthObjectId 7 := by
  refine ⟨by decide, by norm_num [UINT32_LIM], ?_⟩
  exact C9_ids_strictly_increasing 2 7 (by decide) (by norm_num [UINT32_LIM])

/-- C9 counterexample: `idCounter` is a `uint32_t`, so the 2^32-th
construction receives the same id as the very first one — ids are not
pairwise distinct over arbitrary construction sequences, and an id is
reused once the counter wraps. -/
theorem C9_ids_counterexample :
    nthObjectId 4294967296 = nthObjectId 0 ∧ (4294967296 : Nat) ≠ 0 := by
  constructor
  · rw [nthObjectId_mod, nthObjectId_mod]
    norm_num [UINT32_LIM]
  · norm_num

/-! ### World matrix composition -/

/-- One iteration of the `getWorldMatrix` do-while loop. -/
theorem worldLoop_step (w : NodeWorld) (rootId cur : Nat) (acc : GlmMat4) (fuel : Nat) :
    Node.worldLoop w rootId cur acc (fuel + 1)
      = if w.parent cur = 0 ∨ w.parent cur = rootId
        then some (acc * (w.localMatrix cur).transpose)
        else Node.worldLoop w rootId (w.parent cur)
          (acc * (w.localMatrix cur).transpose) fuel := rfl

/-- Untransposing a one-step accumulator. -/
theorem GlmMat4.unT1 (A : GlmMat4) : (1 * A.transpose).transpose = A := by
  rw [GlmMat4.one_mul_self, GlmMat4.transpose_transpose]

/-- Untransposing a two-step accumulator reverses the factors. -/
theorem GlmMat4.unT2 (A B : GlmMat4) :
    (1 * A.transpose * B.transpose).transpose = B * A := by
  rw [GlmMat4.one_mul_self, GlmMat4.transpose_mul, GlmMat4.transpose_transpose,
    GlmMat4.transpose_transpose]

/-- Untransposing a three-step accumulator reverses the factors. -/
theorem GlmMat4.unT3 (A B C : GlmMat4) :
    (1 * A.transpose * B.transpose * C.transpose).transpose = C * B * A := by
  rw [GlmMat4.one_mul_self, GlmMat4.transpose_mul, GlmMat4.transpose_mul,
    GlmMat4.transpose_transpose, GlmMat4.transpose_transpose,
    GlmMat4.transpose_transpose, GlmMat4.mul_assoc_self]

/-- A loop iteration that continues: the parent is neither the sentinel
nor the boundary. -/
theorem worldLoop_go (w : NodeWorld) (rootId cur nxt : Nat) (acc : GlmMat4)
    (fuel : Nat) (hp : w.parent cur = nxt) (h0 : nxt ≠ 0) (hr : nxt ≠ rootId) :
    Node.worldLoop w rootId cur acc (fuel + 1)
      = Node.worldLoop w rootId nxt (acc * (w.localMatrix cur).transpose) fuel := by
  rw [worldLoop_step, hp, if_neg (not_or.mpr ⟨h0, hr⟩)]

/-- A loop iteration that exits: the parent is the sentinel or the
boundary. -/
theorem worldLoop_stop (w : NodeWorld) (rootId cur : Nat) (acc : GlmMat4)
    (fuel : Nat) (hp : w.parent cur = 0 ∨ w.parent cur = rootId) :
    Node.worldLoop w rootId cur acc (fuel + 1)
      = some (acc * (w.localMatrix cur).transpose) := by
  rw [worldLoop_step, if_pos hp]

/-- C6 (amended): for a parent chain root(r) → A(a) → B(b) with the root
unparented, `B.getWorldMatrix()` with the default sentinel boundary
returns `Mr * Ma * Mb` (local matrices composed in root-to-node order, the
topmost real node included); with an explicit boundary the walk stops at
the boundary node *without* composing its local matrix (exclusive
boundary): `B.getWorldMatrix(root)` returns `Ma * Mb` and
`B.getWorldMatrix(A)` returns `Mb` alone.  (The claim's statement that the
boundary is inclusive fails: see the counterexample.) -/
theorem C6_getWorldMatrix_chain (w : NodeWorld) (r a b : Nat)
    (hpb : w.parent b = a) (hpa : w.parent a = r) (hpr : w.parent r = 0)
    (ha0 : a ≠ 0) (hr0 : r ≠ 0) (har : a ≠ r) :
    Node.getWorldMatrix w b 0 3
      = some (w.localMatrix r * w.localMatrix a * w.localMatrix b)
  ∧ Node.getWorldMatrix w b r 2
      = some (w.localMatrix a * w.localMatrix b)
  ∧ Node.getWorldMatrix w b a 1 = some (w.localMatrix b) := by
  refine ⟨?_, ?_, ?_⟩
  · rw [Node.getWorldMatrix, worldLoop_go w 0 b a 1 2 hpb ha0 ha0,
      worldLoop_go w 0 a r _ 1 hpa hr0 hr0,
      worldLoop_stop w 0 r _ 0 (Or.inl hpr), Option.map_some', GlmMat4.unT3]
  · rw [Node.getWorldMatrix, worldLoop_go w r b a 1 1 hpb ha0 har,
      worldLoop_stop w r a _ 0 (Or.inr hpa), Option.map_some', GlmMat4.unT2]
  · rw [Node.getWorldMatrix, worldLoop_stop w a b 1 0 (Or.inr hpb),
      Option.map_some', GlmMat4.unT1]

/-- C6 witness: the concrete chain 1 → 2 → 3 with diagonal local
matrices. -/
theorem C6_getWorldMatrix_witness :
    chainWorld.parent 3 = 2 ∧ chainWorld.parent 2 = 1 ∧ chainWorld.parent 1 = 0
  ∧ (Node.getWorldMatrix chainWorld 3 0 3
      = some (chainWorld.localMatrix 1 * chainWorld.localMatrix 2 * chainWorld.localMatrix 3)
    ∧ Node.getWorldMatrix chainWorld 3 1 2
      = some (chainWorld.localMatrix 2 * chainWorld.localMatrix 3)
    ∧ Node.getWorldMatrix chainWorld 3 2 1 = some (chainWorld.localMatrix 3)) := by
  refine ⟨rfl, rfl, rfl, ?_⟩
  exact C6_getWorldMatrix_chain chainWorld 1 2 3 rfl rfl rfl
    (by decide) (by decide) (by decide)

/-- C6 counterexample: with boundary node A (id 2), the claimed inclusive
boundary would compose `Ma * Mb = diag 6`, but `getWorldMatrix` stops
before composing the boundary's local matrix and returns `Mb = diag 3`. -/
theorem C6_getWorldMatrix_counterexample :
    Node.getWorldMatrix chainWorld 3 2 10 = some (chainWorld.localMatrix 3)
  ∧ chainWorld.localMatrix 3
      ≠ chainWorld.localMatrix 2 * chainWorld.localMatrix 3 := by
  constructor
  · rw [show Node.getWorldMatrix chainWorld 3 2 10
        = some (((1 : GlmMat4) * (chainWorld.localMatrix 3).transpose).transpose)
        from rfl,
      GlmMat4.one_mul_self, GlmMat4.transpose_transpose]
  · rw [show chainWorld.localMatrix 2 = GlmMat4.diag 2 from rfl,
      show chainWorld.localMatrix 3 = GlmMat4.diag 3 from rfl,
      GlmMat4.diag_mul_diag]
    exact GlmMat4.diag_ne 3 (2 * 3) (by norm_num)

/-! ### Render-list construction and consumption -/

theorem lightsOfT_light (i : Nat) (mm : GlmMat4) (cs : List STree) (m : GlmMat4) :
    lightsOfT (STree.mk i NKind.light mm cs) m
      = ⟨i, NKind.light, m * mm⟩ :: lightsOfL cs (m * mm) := rfl

theorem lightsOfT_mesh (i : Nat) (mm : GlmMat4) (cs : List STree) (m : GlmMat4) :
    lightsOfT (STree.mk i NKind.mesh mm cs) m = lightsOfL cs (m * mm) := rfl

theorem lightsOfT_plain (i : Nat) (mm : GlmMat4) (cs : List STree) (m : GlmMat4) :
    lightsOfT (STree.mk i NKind.plain mm cs) m = lightsOfL cs (m * mm) := rfl

theorem meshesOfT_light (i : Nat) (mm : GlmMat4) (cs : List STree) (m : GlmMat4) :
    meshesOfT (STree.mk i NKind.light mm cs) m = meshesOfL cs (m * mm) := rfl

theorem meshesOfT_mesh (i : Nat) (mm : GlmMat4) (cs : List STree) (m : GlmMat4) :
    meshesOfT (STree.mk i NKind.mesh mm cs) m
      = ⟨i, NKind.mesh, m * mm⟩ :: meshesOfL cs (m * mm) := rfl

theorem meshesOfT_plain (i : Nat) (mm : GlmMat4) (cs : List STree) (m : GlmMat4) :
    meshesOfT (STree.mk i NKind.plain mm cs) m = meshesOfL cs (m * mm) := rfl

theorem lightsOfL_nil (m : GlmMat4) : lightsOfL [] m = [] := rfl

theorem meshesOfL_nil (m : GlmMat4) : meshesOfL [] m = [] := rfl

theorem lightsOfL_cons (c : STree) (cs : List STree) (m : GlmMat4) :
    lightsOfL (c :: cs) m = lightsOfT c m ++ lightsOfL cs m := by
  rw [lightsOfL, lightsOfT,
    show elemsOfL (c :: cs) m = elemsOfT c m ++ elemsOfL cs m from rfl,
    List.filter_append]
  rfl

theorem meshesOfL_cons (c : STree) (cs : List STree) (m : GlmMat4) :
    meshesOfL (c :: cs) m = meshesOfT c m ++ meshesOfL cs m := by
  rw [meshesOfL, meshesOfT,
    show elemsOfL (c :: cs) m = elemsOfT c m ++ elemsOfL cs m from rfl,
    List.filter_append]
  rfl

theorem one_le_one_add_add (a b : Nat) : 1 ≤ 1 + a + b :=
  Nat.le_trans (Nat.le_add_right 1 a) (Nat.le_add_right (1 + a) b)

theorem sizeOf_tree_le (a b c n : Nat) (h : 1 + a + b + c ≤ n + 1) : c ≤ n := by
  apply Nat.le_of_succ_le_succ
  apply Nat.le_trans _ h
  rw [Nat.succ_eq_add_one, Nat.add_comm c 1]
  exact Nat.add_le_add_right (one_le_one_add_add a b) c

theorem sizeOf_cons_le (a b n : Nat) (h : 1 + a + b ≤ n + 1) : a ≤ n ∧ b ≤ n := by
  constructor
  · apply Nat.le_of_succ_le_succ
    apply Nat.le_trans _ h
    rw [Nat.succ_eq_add_one, Nat.add_comm a 1]
    exact Nat.le_add_right (1 + a) b
  · apply Nat.le_of_succ_le_succ
    apply Nat.le_trans _ h
    rw [Nat.succ_eq_add_one, Nat.add_comm b 1]
    exact Nat.add_le_add_right (Nat.le_add_right 1 a) b

theorem sizeOf_tree_pos (a b c : Nat) : ¬ 1 + a + b + c ≤ 0 := fun h =>
  Nat.not_succ_le_zero 0
    (Nat.le_trans (Nat.le_trans (one_le_one_add_add a b) (Nat.le_add_right (1 + a + b) c)) h)

theorem sizeOf_list_pos (a b : Nat) : ¬ 1 + a + b ≤ 0 := fun h =>
  Nat.not_succ_le_zero 0 (Nat.le_trans (one_le_one_add_add a b) h)

theorem add_one_shuffle (a b : Nat) : a + 1 + b = a + (b + 1) := by
  rw [Nat.add_assoc, Nat.add_comm 1 b]

/-- Append bookkeeping for a front-inserted element. -/
theorem shuffle_cons {A : Type} (L S M : List A) (e : A) :
    L.reverse ++ (e :: S) ++ M = (e :: L).reverse ++ S ++ M := by
  rw [List.reverse_cons]
  simp only [List.append_assoc, List.singleton_append, List.cons_append, List.nil_append]

/-- Append bookkeeping for a back-inserted element. -/
theorem shuffle_app {A : Type} (L S M : List A) (e : A) :
    L ++ (S ++ [e]) ++ M = L ++ S ++ (e :: M) := by
  simp only [List.append_assoc, List.singleton_append, List.cons_append, List.nil_append]

/-- Append bookkeeping for sequencing two traversal segments. -/
theorem shuffle_seq {A : Type} (L B S M N : List A) :
    B.reverse ++ (L.reverse ++ S ++ M) ++ N = (L ++ B).reverse ++ S ++ (M ++ N) := by
  rw [List.reverse_append]
  simp only [List.append_assoc]

/-- Characterisation of `List::process`, by strong induction on the tree
size: a successful traversal prepends the discovered lights in reverse
discovery order and appends the discovered meshes in discovery order,
and adds the number of discovered lights to `nrOfLights`. -/
theorem processChar_ind (n : Nat) :
    (∀ (t : STree) (s : ListState) (prev : GlmMat4), sizeOf t ≤ n →
      (RenderList.process s t prev).fst = true →
      (RenderList.process s t prev).snd.renderableElem
        = (lightsOfT t prev).reverse ++ s.renderableElem ++ meshesOfT t prev
    ∧ (RenderList.process s t prev).snd.nrOfLights
        = s.nrOfLights + (lightsOfT t prev).length)
  ∧ (∀ (ts : List STree) (s : ListState) (m : GlmMat4), sizeOf ts ≤ n →
      (RenderList.processChildren s ts m).fst = true →
      (RenderList.processChildren s ts m).snd.renderableElem
        = (lightsOfL ts m).reverse ++ s.renderableElem ++ meshesOfL ts m
    ∧ (RenderList.processChildren s ts m).snd.nrOfLights
        = s.nrOfLights + (lightsOfL ts m).length) := by
  induction n with
  | zero =>
    constructor
    · intro t s prev hsz
      obtain ⟨i, k, mm, ccs⟩ := t
      rw [STree.mk.sizeOf_spec] at hsz
      exact absurd hsz (sizeOf_tree_pos _ _ _)
    · intro ts s m hsz
      cases ts with
      | nil => exact fun _ => ⟨(List.append_nil s.renderableElem).symm, rfl⟩
      | cons c cs =>
        rw [List.cons.sizeOf_spec] at hsz
        exact absurd hsz (sizeOf_list_pos _ _)
  | succ n ih =>
    constructor
    · intro t s prev hsz h
      obtain ⟨i, k, mm, ccs⟩ := t
      have hszc : sizeOf ccs ≤ n :=
        sizeOf_tree_le _ _ _ _ (STree.mk.sizeOf_spec i k mm ccs ▸ hsz)
      by_cases hi : i = 0
      · rw [RenderList.process, if_pos hi] at h
        exact Bool.noConfusion h
      · cases k with
        | light =>
          have hpl : RenderList.process s (STree.mk i NKind.light mm ccs) prev
              = RenderList.processChildren
                  { renderableElem := ⟨i, NKind.light, prev * mm⟩ :: s.renderableElem
                    nrOfLights := s.nrOfLights + 1 } ccs (prev * mm) := by
            rw [RenderList.process, if_neg hi]
          rw [hpl] at h ⊢
          have hc := ih.2 ccs _ (prev * mm) hszc h
          refine ⟨?_, ?_⟩
          · rw [hc.1]
            exact shuffle_cons (lightsOfL ccs (prev * mm)) s.renderableElem
              (meshesOfL ccs (prev * mm)) ⟨i, NKind.light, prev * mm⟩
          · rw [hc.2]
            exact add_one_shuffle s.nrOfLights (lightsOfL ccs (prev * mm)).length
        | mesh =>
          have hpl : RenderList.process s (STree.mk i NKind.mesh mm ccs) prev
              = RenderList.processChildren
                  { renderableElem := s.renderableElem ++ [⟨i, NKind.mesh, prev * mm⟩]
                    nrOfLights := s.nrOfLights } ccs (prev * mm) := by
            rw [RenderList.process, if_neg hi]
          rw [hpl] at h ⊢
          have hc := ih.2 ccs _ (prev * mm) hszc h
          refine ⟨?_, hc.2⟩
          rw [hc.1]
          exact shuffle_app (lightsOfL ccs (prev * mm)).reverse s.renderableElem
            (meshesOfL ccs (prev * mm)) ⟨i, NKind.mesh, prev * mm⟩
        | plain =>
          have hpl : RenderList.process s (STree.mk i NKind.plain mm ccs) prev
              = RenderList.processChildren s ccs (prev * mm) := by
            rw [RenderList.process, if_neg hi]
          rw [hpl] at h ⊢
          exact ih.2 ccs s (prev * mm) hszc h
    · intro ts s m hsz h
      cases ts with
      | nil => exact ⟨(List.append_nil s.renderableElem).symm, rfl⟩
      | cons c cs =>
        have hszc : sizeOf c ≤ n ∧ sizeOf cs ≤ n :=
          sizeOf_cons_le _ _ _ (List.cons.sizeOf_spec c cs ▸ hsz)
        rcases hp : RenderList.process s c m with ⟨b, s1⟩
        cases b with
        | false =>
          rw [RenderList.processChildren, hp] at h
          exact Bool.noConfusion h
        | true =>
          have hstep : RenderList.processChildren s (c :: cs) m
              = RenderList.processChildren s1 cs m := by
            rw [RenderList.processChildren, hp]
          rw [hstep] at h ⊢
          have htail := ih.2 cs s1 m hszc.2 h
          have hhead := ih.1 c s m hszc.1 (by rw [hp])
          rw [hp] at hhead
          refine ⟨?_, ?_⟩
          · rw [htail.1, hhead.1, lightsOfL_cons, meshesOfL_cons]
            exact shuffle_seq (lightsOfT c m) (lightsOfL cs m) s.renderableElem
              (meshesOfT c m) (meshesOfL cs m)
          · rw [htail.2, hhead.2, lightsOfL_cons, List.length_append]
            exact Nat.add_assoc s.nrOfLights (lightsOfT c m).length (lightsOfL cs m).length

/-- `List::process` on a whole subtree, the tree-level instance of
`processChar_ind`. -/
theorem process_char (t : STree) (s : ListState) (prev : GlmMat4)
    (h : (RenderList.process s t prev).fst = true) :
    (RenderList.process s t prev).snd.renderableElem
      = (lightsOfT t prev).reverse ++ s.renderableElem ++ meshesOfT t prev
  ∧ (RenderList.process s t prev).snd.nrOfLights
      = s.nrOfLights + (lightsOfT t prev).length :=
  (processChar_ind (sizeOf t)).1 t s prev le_rfl h

/-- Discovered Lights and Meshes count exactly the Light and Mesh nodes of
the traversed subtree, by strong induction on the tree size. -/
theorem lightCount_ind (n : Nat) :
    (∀ (t : STree) (m : GlmMat4), sizeOf t ≤ n →
      (lightsOfT t m).length = countKindT NKind.light t
    ∧ (meshesOfT t m).length = countKindT NKind.mesh t)
  ∧ (∀ (ts : List STree) (m : GlmMat4), sizeOf ts ≤ n →
      (lightsOfL ts m).length = countKindL NKind.light ts
    ∧ (meshesOfL ts m).length = countKindL NKind.mesh ts) := by
  induction n with
  | zero =>
    constructor
    · intro t m hsz
      obtain ⟨i, k, mm, ccs⟩ := t
      rw [STree.mk.sizeOf_spec] at hsz
      exact absurd hsz (sizeOf_tree_pos _ _ _)
    · intro ts m hsz
      cases ts with
      | nil => exact absurd hsz (Nat.not_succ_le_zero 0)
      | cons c cs =>
        rw [List.cons.sizeOf_spec] at hsz
        exact absurd hsz (sizeOf_list_pos _ _)
  | succ n ih =>
    constructor
    · intro t m hsz
      obtain ⟨i, k, mm, ccs⟩ := t
      have hszc : sizeOf ccs ≤ n :=
        sizeOf_tree_le _ _ _ _ (STree.mk.sizeOf_spec i k mm ccs ▸ hsz)
      have hc := ih.2 ccs (m * mm) hszc
      cases k with
      | light =>
        refine ⟨?_, ?_⟩
        · rw [lightsOfT_light, List.length_cons, hc.1,
            show countKindT NKind.light (STree.mk i NKind.light mm ccs)
              = 1 + countKindL NKind.light ccs from rfl]
          exact Nat.add_comm _ 1
        · rw [meshesOfT_light, hc.2,
            show countKindT NKind.mesh (STree.mk i NKind.light mm ccs)
              = 0 + countKindL NKind.mesh ccs from rfl,
            Nat.zero_add]
      | mesh =>
        refine ⟨?_, ?_⟩
        · rw [lightsOfT_mesh, hc.1,
            show countKindT NKind.light (STree.mk i NKind.mesh mm ccs)
              = 0 + countKindL NKind.light ccs from rfl,
            Nat.zero_add]
        · rw [meshesOfT_mesh, List.length_cons, hc.2,
            show countKindT NKind.mesh (STree.mk i NKind.mesh mm ccs)
              = 1 + countKindL NKind.mesh ccs from rfl]
          exact Nat.add_comm _ 1
      | plain =>
        refine ⟨?_, ?_⟩
        · rw [lightsOfT_plain, hc.1,
            show countKindT NKind.light (STree.mk i NKind.plain mm ccs)
              = 0 + countKindL NKind.light ccs from rfl,
            Nat.zero_add]
        · rw [meshesOfT_plain, hc.2,
            show countKindT NKind.mesh (STree.mk i NKind.plain mm ccs)
              = 0 + countKindL NKind.mesh ccs from rfl,
            Nat.zero_add]
    · intro ts m hsz
      cases ts with
      | nil => exact ⟨rfl, rfl⟩
      | cons c cs =>
        have hszc : sizeOf c ≤ n ∧ sizeOf cs ≤ n :=
          sizeOf_cons_le _ _ _ (List.cons.sizeOf_spec c cs ▸ hsz)
        have h1 := ih.1 c m hszc.1
        have h2 := ih.2 cs m hszc.2
        refine ⟨?_, ?_⟩
        · rw [lightsOfL_cons, List.length_append, h1.1, h2.1]
          rfl
        · rw [meshesOfL_cons, List.length_append, h1.2, h2.2]
          rfl

/-- `render` with `Pass::all` visits the whole vector in index order. -/
theorem render_all (s : ListState) (cam : GlmMat4) :
    RenderList.render s cam Pass.all = s.renderableElem.map (mkRenderCall cam) := by
  rw [show RenderList.render s cam Pass.all
      = ((s.renderableElem.take s.renderableElem.length).drop 0).map (mkRenderCall cam)
      from rfl,
    List.take_length, List.drop_zero]

/-- `render` with `Pass::lights` visits indices `[0, nrOfLights)`. -/
theorem render_lights (s : ListState) (cam : GlmMat4) :
    RenderList.render s cam Pass.lights
      = (s.renderableElem.take s.nrOfLights).map (mkRenderCall cam) := by
  rw [show RenderList.render s cam Pass.lights
      = ((s.renderableElem.take s.nrOfLights).drop 0).map (mkRenderCall cam)
      from rfl,
    List.drop_zero]

/-- `render` with `Pass::meshes` visits indices `[nrOfLights, size)`. -/
theorem render_meshes (s : ListState) (cam : GlmMat4) :
    RenderList.render s cam Pass.meshes
      = (s.renderableElem.drop s.nrOfLights).map (mkRenderCall cam) := by
  rw [show RenderList.render s cam Pass.meshes
      = ((s.renderableElem.take s.renderableElem.length).drop s.nrOfLights).map
          (mkRenderCall cam)
      from rfl,
    List.take_length]

/-- C7: after a successful traversal started on a reset list, the element
sequence is exactly the discovered Lights in reverse discovery order
(each Light is inserted at position 0, so the last-discovered light is
first) followed by the discovered Meshes in discovery order, and
`nrOfLights` counts the lights. -/
theorem C7_light_order (t : STree)
    (h : (RenderList.process resetList t 1).fst = true) :
    (RenderList.process resetList t 1).snd.renderableElem
      = (lightsOfT t 1).reverse ++ meshesOfT t 1
  ∧ (RenderList.process resetList t 1).snd.nrOfLights = (lightsOfT t 1).length := by
  have hchar := process_char t resetList 1 h
  refine ⟨?_, ?_⟩
  · rw [hchar.1, show resetList.renderableElem = ([] : List RenderableElem) from rfl,
      List.append_nil]
  · rw [hchar.2, show resetList.nrOfLights = 0 from rfl, Nat.zero_add]

/-- C2: for a scene graph with `L` Light nodes and `M` Mesh nodes
reachable from the root, after `reset()` and a successful `process(root)`
the list holds `getNrOfLights() == L`, `getNrOfRenderableElems() == L + M`,
every element at an index below `L` refers to a Light and every element at
an index at or above `L` refers to a Mesh; plain nodes contribute no
element, but the counts include every Light/Mesh in the tree because their
children are still visited. -/
theorem C2_process_partition (t : STree)
    (h : (RenderList.process resetList t 1).fst = true) :
    (RenderList.process resetList t 1).snd.nrOfLights = countKindT NKind.light t
  ∧ (RenderList.process resetList t 1).snd.renderableElem.length
      = countKindT NKind.light t + countKindT NKind.mesh t
  ∧ (∀ (i : Nat) (e : RenderableElem), i < countKindT NKind.light t →
      (RenderList.process resetList t 1).snd.renderableElem.get? i = some e →
      e.refKind = NKind.light)
  ∧ (∀ (i : Nat) (e : RenderableElem), countKindT NKind.light t ≤ i →
      (RenderList.process resetList t 1).snd.renderableElem.get? i = some e →
      e.refKind = NKind.mesh) := by
  have hchar := process_char t resetList 1 h
  have hcnt := (lightCount_ind (sizeOf t)).1 t 1 le_rfl
  have helems : (RenderList.process resetList t 1).snd.renderableElem
      = (lightsOfT t 1).reverse ++ meshesOfT t 1 := by
    rw [hchar.1, show resetList.renderableElem = ([] : List RenderableElem) from rfl,
      List.append_nil]
  have hn : (RenderList.process resetList t 1).snd.nrOfLights
      = (lightsOfT t 1).length := by
    rw [hchar.2, show resetList.nrOfLights = 0 from rfl, Nat.zero_add]
  refine ⟨hn.trans hcnt.1, ?_, ?_, ?_⟩
  · rw [helems, List.length_append, List.length_reverse, hcnt.1, hcnt.2]
  · intro i e hiL hget
    rw [helems] at hget
    have hlt : i < (lightsOfT t 1).reverse.length := by
      rw [List.length_reverse, hcnt.1]
      exact hiL
    rw [List.get?_eq_getElem?, List.getElem?_append_left hlt,
      ← List.get?_eq_getElem?] at hget
    have hmem := List.get?_mem hget
    rw [List.mem_reverse, lightsOfT] at hmem
    exact of_decide_eq_true (List.mem_filter.mp hmem).2
  · intro i e hiL hget
    rw [helems] at hget
    have hge : (lightsOfT t 1).reverse.length ≤ i := by
      rw [List.length_reverse, hcnt.1]
      exact hiL
    rw [List.get?_eq_getElem?, List.getElem?_append_right hge,
      ← List.get?_eq_getElem?] at hget
    have hmem := List.get?_mem hget
    rw [meshesOfT] at hmem
    exact of_decide_eq_true (List.mem_filter.mp hmem).2

/-- C1 (amended): on a list built by `process`, `render(cameraMatrix,
pass)` issues one polymorphic `render(0, &info)` call per element of the
sub-range selected by the pass — `[0, nrOfLights)` for `lights`,
`[nrOfLights, size)` for `meshes`, `[0, size)` for `all` — in index order,
and the two partial passes concatenate to the full one; `nrOfLights` is
within bounds, so every `at(c)` access succeeds.  Each call's payload
carries the camera matrix and `objMatrix = element.worldMatrix`: the code
does *not* multiply `cameraMatrix * worldMatrix` (see the
counterexample). -/
theorem C1_render_passes (t : STree) (cam : GlmMat4)
    (h : (RenderList.process resetList t 1).fst = true) :
    RenderList.render (RenderList.process resetList t 1).snd cam Pass.all
      = (RenderList.process resetList t 1).snd.renderableElem.map (mkRenderCall cam)
  ∧ RenderList.render (RenderList.process resetList t 1).snd cam Pass.lights
      = ((RenderList.process resetList t 1).snd.renderableElem.take
          (RenderList.process resetList t 1).snd.nrOfLights).map (mkRenderCall cam)
  ∧ RenderList.render (RenderList.process resetList t 1).snd cam Pass.meshes
      = ((RenderList.process resetList t 1).snd.renderableElem.drop
          (RenderList.process resetList t 1).snd.nrOfLights).map (mkRenderCall cam)
  ∧ RenderList.render (RenderList.process resetList t 1).snd cam Pass.lights
      ++ RenderList.render (RenderList.process resetList t 1).snd cam Pass.meshes
      = RenderList.render (RenderList.process resetList t 1).snd cam Pass.all
  ∧ (RenderList.process resetList t 1).snd.nrOfLights
      ≤ (RenderList.process resetList t 1).snd.renderableElem.length
  ∧ ∀ call ∈ RenderList.render (RenderList.process resetList t 1).snd cam Pass.all,
      call.value = 0 ∧ call.camMatrix = cam
      ∧ ∃ re ∈ (RenderList.process resetList t 1).snd.renderableElem,
          call.objMatrix = re.matrix ∧ call.targetId = re.refId := by
  have hchar := process_char t resetList 1 h
  have hle : (RenderList.process resetList t 1).snd.nrOfLights
      ≤ (RenderList.process resetList t 1).snd.renderableElem.length := by
    rw [hchar.1, hchar.2, show resetList.renderableElem = ([] : List RenderableElem) from rfl,
      show resetList.nrOfLights = 0 from rfl, Nat.zero_add, List.append_nil,
      List.length_append, List.length_reverse]
    exact Nat.le_add_right _ _
  refine ⟨render_all _ _, render_lights _ _, render_meshes _ _, ?_, hle, ?_⟩
  · rw [render_all, render_lights, render_meshes, ← List.map_append,
      List.take_append_drop]
  · intro call hcall
    rw [render_all] at hcall
    obtain ⟨re, hre, hcalleq⟩ := List.mem_map.mp hcall
    subst hcalleq
    exact ⟨rfl, rfl, re, hre, rfl, rfl⟩

/-- C1 witness: the sample scene, rendered with the diag-3 camera. -/
theorem C1_witness :
    (RenderList.process resetList sampleTree 1).fst = true
  ∧ (RenderList.render (RenderList.process resetList sampleTree 1).snd cexCam Pass.lights
      ++ RenderList.render (RenderList.process resetList sampleTree 1).snd cexCam Pass.meshes
      = RenderList.render (RenderList.process resetList sampleTree 1).snd cexCam Pass.all) :=
  ⟨rfl, (C1_render_passes sampleTree cexCam rfl).2.2.2.1⟩

/-- C1 counterexample: processing a single mesh with local matrix diag 2
and rendering with camera diag 3, the payload's `objMatrix` is the world
matrix `1 * diag 2` itself, which differs from the claimed
`cameraMatrix * worldMatrix = diag 3 * (1 * diag 2)`. -/
theorem C1_counterexample :
    (RenderList.process resetList cexTree 1).fst = true
  ∧ (RenderList.render (RenderList.process resetList cexTree 1).snd cexCam Pass.all).map
      (fun call => call.objMatrix)
      = [(1 : GlmMat4) * GlmMat4.diag 2]
  ∧ ((1 : GlmMat4) * GlmMat4.diag 2)
      ≠ cexCam * ((1 : GlmMat4) * GlmMat4.diag 2) := by
  refine ⟨rfl, rfl, ?_⟩
  intro hcontra
  rw [GlmMat4.one_mul_self, show cexCam = GlmMat4.diag 3 from rfl,
    GlmMat4.diag_mul_diag] at hcontra
  exact GlmMat4.diag_ne 2 (3 * 2) (by norm_num) hcontra

/-- C2 witness: the sample scene (two lights, one mesh under a plain
node). -/
theorem C2_witness :
    (RenderList.process resetList sampleTree 1).fst = true
  ∧ ((RenderList.process resetList sampleTree 1).snd.nrOfLights
        = countKindT NKind.light sampleTree
    ∧ (RenderList.process resetList sampleTree 1).snd.renderableElem.length
        = countKindT NKind.light sampleTree + countKindT NKind.mesh sampleTree
    ∧ (∀ (i : Nat) (e : RenderableElem), i < countKindT NKind.light sampleTree →
        (RenderList.process resetList sampleTree 1).snd.renderableElem.get? i = some e →
        e.refKind = NKind.light)
    ∧ (∀ (i : Nat) (e : RenderableElem), countKindT NKind.light sampleTree ≤ i →
        (RenderList.process resetList sampleTree 1).snd.renderableElem.get? i = some e →
        e.refKind = NKind.mesh)) :=
  ⟨rfl, C2_process_partition sampleTree rfl⟩

/-- C7 witness: in the sample scene the lights are discovered as 2 then 5
and end up stored as 5 then 2 — reverse discovery order — followed by
mesh 4. -/
theorem C7_witness :
    (RenderList.process resetList sampleTree 1).fst = true
  ∧ ((RenderList.process resetList sampleTree 1).snd.renderableElem
        = (lightsOfT sampleTree 1).reverse ++ meshesOfT sampleTree 1
    ∧ (RenderList.process resetList sampleTree 1).snd.nrOfLights
        = (lightsOfT sampleTree 1).length)
  ∧ ((lightsOfT sampleTree 1).map fun e => e.refId) = [2, 5]
  ∧ ((RenderList.process resetList sampleTree 1).snd.renderableElem.map
      fun e => e.refId) = [5, 2, 4] :=
  ⟨rfl, C7_light_order sampleTree rfl, rfl, rfl⟩
